import Mathlib

/-
Verification development for the nba-predictive-analytics repository.

Each Python function relevant to the checked claims is shallowly embedded as a
Lean definition over exact arithmetic (ℚ for floats, ℤ/ℕ for ints, lists for
arrays and table rows, Except for raising code paths).  Definitions follow the
source line by line; comments cite the source file and line ranges.
-/

namespace NBA

/-! ## Post-inference clipping (src/nba-analytics/ml/data_preprocessor.py, clip_predictions, lines 266-297)

`np.clip(a, lo, hi)` computes `min (max a lo) hi` elementwise; `np.round` rounds
half to even (banker's rounding).  A prediction row has 9 components, embedded
as `Fin 9 → ℚ`.
-/

/-- Embedding of `np.clip` on a scalar. -/
def npClip (x lo hi : ℚ) : ℚ := min (max x lo) hi

/-- Embedding of `np.round` on a scalar: round half to even, as a rational. -/
def npRound (x : ℚ) : ℚ :=
  if x - (⌊x⌋ : ℚ) < 1/2 then (⌊x⌋ : ℚ)
  else if 1/2 < x - (⌊x⌋ : ℚ) then ((⌊x⌋ + 1 : ℤ) : ℚ)
  else if Even ⌊x⌋ then (⌊x⌋ : ℚ) else ((⌊x⌋ + 1 : ℤ) : ℚ)

/-- Embedding of `clip_predictions` (data_preprocessor.py lines 266-297) on a
single 9-component prediction row. -/
def clip_predictions (p : Fin 9 → ℚ) : Fin 9 → ℚ := fun i =>
  if i.val = 0 then npClip (p 0) 0 82        -- wins: 0-82
  else if i.val = 1 then npClip (p 1) 0 82   -- losses: 0-82
  else if i.val = 2 then npClip (p 2) 0 1    -- win_pct: 0-1
  else if i.val = 3 then npClip (npRound (p 3)) 1 15  -- conf_rank: 1-15
  else if i.val = 4 then npClip (p 4) 0 1    -- playoff_prob: 0-1
  else if i.val = 5 then npClip (p 5) 90 140 -- ppg: 90-140
  else if i.val = 6 then npClip (p 6) 90 140 -- oppg: 90-140
  else if i.val = 7 then npClip (p 7) 90 110 -- pace: 90-110
  else npClip (p 8) 95 125                   -- def_rating: 95-125

/-- Lower clipping bound used for component `i` of a prediction row. -/
def clipLo (i : Fin 9) : ℚ :=
  if i.val = 3 then 1
  else if i.val = 5 ∨ i.val = 6 ∨ i.val = 7 then 90
  else if i.val = 8 then 95 else 0

/-- Upper clipping bound used for component `i` of a prediction row. -/
def clipHi (i : Fin 9) : ℚ :=
  if i.val = 0 ∨ i.val = 1 then 82
  else if i.val = 2 ∨ i.val = 4 then 1
  else if i.val = 3 then 15
  else if i.val = 5 ∨ i.val = 6 then 140
  else if i.val = 7 then 110 else 125

/-- A prediction row whose conference-rank component (index 3) is the
non-integral value 7.4, inside the rank range [1,15]; all other components 40. -/
def predRankFrac : Fin 9 → ℚ := fun i => if i.val = 3 then 37/5 else 40

/-- A prediction row with every component equal to 40. -/
def predAll40 : Fin 9 → ℚ := fun _ => 40

theorem npClip_of_le_of_le {x lo hi : ℚ} (h1 : lo ≤ x) (h2 : x ≤ hi) :
    npClip x lo hi = x := by
  unfold npClip
  rw [max_eq_left h1, min_eq_left h2]

theorem npRound_int (k : ℤ) : npRound (k : ℚ) = k := by
  unfold npRound
  rw [Int.floor_intCast]
  rw [if_pos (by norm_num)]

theorem npRound_dist (x : ℚ) : |npRound x - x| ≤ 1/2 := by
  have hfl : (⌊x⌋ : ℚ) ≤ x := Int.floor_le x
  have hfu : x < (⌊x⌋ : ℚ) + 1 := Int.lt_floor_add_one x
  unfold npRound
  split_ifs with h1 h2 h3
  · rw [abs_sub_comm, abs_of_nonneg (by linarith)]; linarith
  · push_cast
    rw [abs_of_nonneg (by linarith)]; linarith
  · rw [abs_sub_comm, abs_of_nonneg (by linarith)]; linarith
  · push_cast
    rw [abs_of_nonneg (by linarith)]; linarith

theorem npRound_isInt (x : ℚ) : ∃ k : ℤ, npRound x = (k : ℚ) := by
  unfold npRound
  split_ifs
  exacts [⟨⌊x⌋, rfl⟩, ⟨⌊x⌋ + 1, rfl⟩, ⟨⌊x⌋, rfl⟩, ⟨⌊x⌋ + 1, rfl⟩]

/-- C3 counterexample: the claim "any component already inside its range passes
through unchanged" fails at the conference-rank component: 7.4 lies inside
[1,15] yet `clip_predictions` rounds it to 7. -/
theorem clip_predictions_rank_not_pass_through :
    (1 ≤ predRankFrac 3 ∧ predRankFrac 3 ≤ 15) ∧
      clip_predictions predRankFrac 3 ≠ predRankFrac 3 := by
  have hval : predRankFrac 3 = 37/5 := by
    simp only [predRankFrac]
    rw [if_pos (show ((3 : Fin 9).val = 3) from rfl)]
  have hfloor : ⌊(37/5 : ℚ)⌋ = 7 := by norm_num
  have hround : npRound (37/5 : ℚ) = 7 := by
    unfold npRound
    rw [hfloor]
    rw [if_pos (by norm_num)]
    norm_num
  refine ⟨⟨by rw [hval]; norm_num, by rw [hval]; norm_num⟩, ?_⟩
  show npClip (npRound (predRankFrac 3)) 1 15 ≠ predRankFrac 3
  rw [hval, hround]
  norm_num [npClip]

/-- C3 (amended): `clip_predictions` clamps component-wise with the stated
bounds, rounding the conference rank (index 3) half-to-even before clamping;
`npRound` lands on a nearest integer (within 1/2); every component other than
the conference rank passes through unchanged when already inside its range,
and the conference rank passes through unchanged when it is an integer in
[1,15]. -/
theorem clip_predictions_spec (p : Fin 9 → ℚ) :
    (∀ i : Fin 9, i.val ≠ 3 → clip_predictions p i = npClip (p i) (clipLo i) (clipHi i)) ∧
    clip_predictions p 3 = npClip (npRound (p 3)) 1 15 ∧
    (∀ x : ℚ, |npRound x - x| ≤ 1/2 ∧ ∃ k : ℤ, npRound x = (k : ℚ)) ∧
    (∀ i : Fin 9, i.val ≠ 3 → clipLo i ≤ p i → p i ≤ clipHi i →
      clip_predictions p i = p i) ∧
    (∀ k : ℤ, p 3 = (k : ℚ) → 1 ≤ p 3 → p 3 ≤ 15 → clip_predictions p 3 = p 3) := by
  refine ⟨?_, ?_, ?_, ?_, ?_⟩
  · intro i hi
    rcases i with ⟨iv, hlt⟩
    interval_cases iv <;> simp_all [clip_predictions, clipLo, clipHi]
  · rfl
  · exact fun x => ⟨npRound_dist x, npRound_isInt x⟩
  · intro i hi hlo hhi
    rcases i with ⟨iv, hlt⟩
    interval_cases iv <;>
      simp_all [clip_predictions, clipLo, clipHi] <;>
      exact npClip_of_le_of_le hlo hhi
  · intro k hk h1 h15
    show npClip (npRound (p 3)) 1 15 = p 3
    rw [hk, npRound_int, ← hk, npClip_of_le_of_le h1 h15]

/-- C3 witness: instantiating the amended clipping theorem at a concrete row:
a wins value of 40 is inside [0,82] and passes through unchanged. -/
theorem clip_predictions_spec_witness : clip_predictions predAll40 0 = predAll40 0 := by
  have h := clip_predictions_spec predAll40
  exact h.2.2.2.1 0 (by norm_num) (by norm_num [predAll40, clipLo]) (by norm_num [predAll40, clipHi])

/-! ## Game-clock parsing (src/nba-analytics/services/data_ingestion.py, _parse_game_clock, lines 81-113)

The Python function takes an arbitrary value: `None` and non-string values (and
the empty string, which is falsy) short-circuit to five spaces.  For strings it
strips a `PT` prefix, splits on `M`, parses the minute part with `int(...)` and
the second part with `int(float(...))`; any exception in that block is caught
and five spaces returned.  Numeric parsing is embedded exactly for the decimal
forms Python accepts (`int()`: optional sign + digits; `float()`: optional sign,
digits with at most one dot, optional exponent).  Python underscore separators
and overflow-to-infinity are not modelled; neither affects any input discussed
here.  `f-string` `02d` padding pads with zeros to width 2 including the sign,
which for width 2 means padding exactly the one-character decimal strings. -/

/-- The Python input to `_parse_game_clock`: `None`, any non-string value, or a
string.  (`not clock_str or not isinstance(clock_str, str)` sends `None` and
every non-string to the empty-clock return.) -/
inductive PyClockInput where
  | pynone
  | pyNonString
  | pystr (s : String)

/-- Five spaces: the "empty clock" return value. -/
def emptyClock : String := "     "

/-- Python `f"{n:02d}"` for width 2: zero-pad the decimal form to length 2
(the sign counts toward the width). -/
def pad2 (n : ℤ) : String :=
  if (toString n).length < 2 then "0" ++ toString n else toString n

/-- The `f"{minutes:02d}:{seconds:02d}"` format. -/
def clockFormat (m s : ℤ) : String := pad2 m ++ ":" ++ pad2 s

/-- Value of a digit list read in base 10. -/
def digitsToNat (cs : List Char) : ℕ :=
  cs.foldl (fun a c => a * 10 + (c.toNat - '0'.toNat)) 0

/-- Python `str.strip()`: drop whitespace from both ends. -/
def pyStrip (cs : List Char) : List Char :=
  ((cs.dropWhile Char.isWhitespace).reverse.dropWhile Char.isWhitespace).reverse

/-- Python `str.split(sep)` for a one-character separator. -/
def pySplit (sep : Char) : List Char → List (List Char)
  | [] => [[]]
  | c :: rest =>
    if c = sep then [] :: pySplit sep rest
    else ((c :: (pySplit sep rest).headD []) :: (pySplit sep rest).tail)

/-- Split off an optional leading `+`/`-` sign, Python-style. -/
def splitSign (cs : List Char) : ℤ × List Char :=
  match cs with
  | '-' :: rest => (-1, rest)
  | '+' :: rest => (1, rest)
  | _ => (1, cs)

/-- Embedding of Python `int(s)` on a string: strip whitespace, optional sign,
then a nonempty run of digits; anything else raises (here: `none`). -/
def pyInt (cs : List Char) : Option ℤ :=
  if (splitSign (pyStrip cs)).2 ≠ [] ∧ (splitSign (pyStrip cs)).2.all Char.isDigit then
    some ((splitSign (pyStrip cs)).1 * digitsToNat (splitSign (pyStrip cs)).2)
  else none

/-- Split a char list at the first char satisfying `p`; `none` if absent. -/
def splitFirst (p : Char → Bool) : List Char → List Char × Option (List Char)
  | [] => ([], none)
  | c :: rest =>
    if p c then ([], some rest)
    else ((c :: (splitFirst p rest).1), (splitFirst p rest).2)

/-- Truncation toward zero of `sign * (I + F/10^d) * 10^e` with whole-number
arithmetic: the magnitude `(I*10^d + F) * 10^e / 10^d` is truncated by natural
division (downward = toward zero on nonnegatives) and the sign applied after,
exactly as Python `int(...)` truncates a float toward zero. -/
def truncDecimal (sign : ℤ) (I F d : ℕ) (esign : ℤ) (e : ℕ) : ℤ :=
  if 0 ≤ esign then sign * (((I * 10 ^ d + F) * 10 ^ e) / 10 ^ d : ℕ)
  else sign * ((I * 10 ^ d + F) / 10 ^ (d + e) : ℕ)

/-- Helper for `pyIntFloat`: digit-validate mantissa and exponent and compute. -/
def pyIntFloatParts (sign : ℤ) (ipart fpart : List Char) (expPart : Option (List Char)) : Option ℤ :=
  if ¬ (ipart.all Char.isDigit ∧ fpart.all Char.isDigit ∧ (ipart ≠ [] ∨ fpart ≠ [])) then
    none
  else
    match expPart with
    | none => some (truncDecimal sign (digitsToNat ipart) (digitsToNat fpart) fpart.length 1 0)
    | some ecs =>
      if (splitSign ecs).2 ≠ [] ∧ (splitSign ecs).2.all Char.isDigit then
        some (truncDecimal sign (digitsToNat ipart) (digitsToNat fpart) fpart.length
          (splitSign ecs).1 (digitsToNat (splitSign ecs).2))
      else none

/-- Helper for `pyIntFloat`: the part after the optional sign, split at the
exponent marker and the fraction dot. -/
def pyIntFloatSigned (sign : ℤ) (rest : List Char) : Option ℤ :=
  pyIntFloatParts sign
    (splitFirst (fun c => c = '.') (splitFirst (fun c => c = 'e' ∨ c = 'E') rest).1).1
    (((splitFirst (fun c => c = '.') (splitFirst (fun c => c = 'e' ∨ c = 'E') rest).1).2).getD [])
    ((splitFirst (fun c => c = 'e' ∨ c = 'E') rest).2)

/-- Embedding of Python `int(float(s))`: parse a decimal literal with optional
sign, fraction dot and exponent, then truncate toward zero; a malformed string
raises (here: `none`).  (Python evaluates through a binary double first; the
rounding of a >17-significant-digit literal to a double is not modelled.) -/
def pyIntFloat (cs : List Char) : Option ℤ :=
  pyIntFloatSigned (splitSign (pyStrip cs)).1 (splitSign (pyStrip cs)).2

/-- The `'M' in clock_str` branch of `_parse_game_clock` (lines 97-104): minutes
from `int(parts[0])`, seconds from `int(float(parts[1].replace('S','').strip()))`
when `len(parts) > 1 and parts[1]` is truthy and the stripped string is
nonempty.  `str.replace('S', '')` removes every `'S'`, hence the filter. -/
def parseClockMinutes (s1 : List Char) : String :=
  (pyInt ((pySplit 'M' s1).headD [])).elim emptyClock (fun m =>
    if (pySplit 'M' s1).length > 1 ∧ (pySplit 'M' s1).getD 1 [] ≠ [] then
      if pyStrip (((pySplit 'M' s1).getD 1 []).filter (· ≠ 'S')) ≠ [] then
        (pyIntFloat (pyStrip (((pySplit 'M' s1).getD 1 []).filter (· ≠ 'S')))).elim
          emptyClock (fun k => clockFormat m k)
      else clockFormat m 0
    else clockFormat m 0)

/-- The `elif 'S' in clock_str` branch of `_parse_game_clock` (lines 105-109). -/
def parseClockSecondsOnly (s1 : List Char) : String :=
  if pyStrip (s1.filter (· ≠ 'S')) ≠ [] then
    (pyIntFloat (pyStrip (s1.filter (· ≠ 'S')))).elim emptyClock (fun k => clockFormat 0 k)
  else clockFormat 0 0

/-- `clock_str.startswith('PT')` followed by `clock_str[2:]`. -/
def stripPT : List Char → List Char
  | 'P' :: 'T' :: rest => rest
  | cs => cs

/-- Embedding of `NBADataIngestionService._parse_game_clock` (data_ingestion.py
lines 81-113), on the character list of the input string.  Every exception
raised inside the `try` block is caught and the empty clock returned, which the
`Option`-valued numeric parsers model as `none`. -/
def parseGameClock : PyClockInput → String
  | .pynone => emptyClock
  | .pyNonString => emptyClock
  | .pystr s =>
    if s.toList = [] then emptyClock
    else if (stripPT s.toList).contains 'M' then parseClockMinutes (stripPT s.toList)
    else if (stripPT s.toList).contains 'S' then parseClockSecondsOnly (stripPT s.toList)
    else clockFormat 0 0

/-- C10 counterexample: the claim says every input other than a parseable ISO
8601 duration yields the five-space string, but the malformed string "abc"
(no `M`, no `S`) falls through to `f"{0:02d}:{0:02d}"` and yields "00:00". -/
theorem parseGameClock_abc_not_spaces :
    parseGameClock (.pystr "abc") = "00:00" ∧ "00:00" ≠ emptyClock := by
  constructor
  · decide
  · decide

theorem parseClockMinutes_shape (s1 : List Char) :
    parseClockMinutes s1 = emptyClock ∨ ∃ m k : ℤ, parseClockMinutes s1 = clockFormat m k := by
  unfold parseClockMinutes
  cases hmin : pyInt ((pySplit 'M' s1).headD []) with
  | none => exact Or.inl (by rw [Option.elim_none])
  | some m =>
    rw [Option.elim_some]
    by_cases hlen : (pySplit 'M' s1).length > 1 ∧ (pySplit 'M' s1).getD 1 [] ≠ []
    · rw [if_pos hlen]
      by_cases hsec : pyStrip (((pySplit 'M' s1).getD 1 []).filter (· ≠ 'S')) ≠ []
      · rw [if_pos hsec]
        cases hk : pyIntFloat (pyStrip (((pySplit 'M' s1).getD 1 []).filter (· ≠ 'S'))) with
        | none => exact Or.inl (by rw [Option.elim_none])
        | some k => exact Or.inr ⟨m, k, by rw [Option.elim_some]⟩
      · rw [if_neg hsec]
        exact Or.inr ⟨m, 0, rfl⟩
    · rw [if_neg hlen]
      exact Or.inr ⟨m, 0, rfl⟩

theorem parseClockSecondsOnly_shape (s1 : List Char) :
    parseClockSecondsOnly s1 = emptyClock ∨
      ∃ m k : ℤ, parseClockSecondsOnly s1 = clockFormat m k := by
  unfold parseClockSecondsOnly
  by_cases hsec : pyStrip (s1.filter (· ≠ 'S')) ≠ []
  · rw [if_pos hsec]
    cases hk : pyIntFloat (pyStrip (s1.filter (· ≠ 'S'))) with
    | none => exact Or.inl (by rw [Option.elim_none])
    | some k => exact Or.inr ⟨0, k, by rw [Option.elim_some]⟩
  · rw [if_neg hsec]
    exact Or.inr ⟨0, 0, rfl⟩

/-- C10 (amended): `_parse_game_clock` is total — every input yields either the
five-space empty clock or a formatted `MM:SS` string, never an exception.
`None`, non-strings, and the empty string yield the empty clock;
`'PT11M58.00S'` yields `'11:58'`; malformed strings yield the empty clock only
when numeric parsing of an extracted minutes/seconds field fails, and are
otherwise formatted best-effort (e.g. `'abc'` → `'00:00'`). -/
theorem parseGameClock_total_spec :
    parseGameClock .pynone = emptyClock ∧
    parseGameClock .pyNonString = emptyClock ∧
    parseGameClock (.pystr "") = emptyClock ∧
    parseGameClock (.pystr "PT11M58.00S") = "11:58" ∧
    ∀ inp : PyClockInput, parseGameClock inp = emptyClock ∨
      ∃ m s : ℤ, parseGameClock inp = clockFormat m s := by
  refine ⟨rfl, rfl, by decide, by decide, ?_⟩
  intro inp
  match inp with
  | .pynone => exact Or.inl rfl
  | .pyNonString => exact Or.inl rfl
  | .pystr s =>
    by_cases hs : s.toList = []
    · have h : parseGameClock (.pystr s) = emptyClock := by
        show (if _ then _ else _) = _
        rw [if_pos hs]
      exact Or.inl h
    by_cases hM : (stripPT s.toList).contains 'M'
    · have h : parseGameClock (.pystr s) = parseClockMinutes (stripPT s.toList) := by
        show (if _ then _ else if _ then _ else _) = _
        rw [if_neg hs, if_pos hM]
      rw [h]
      exact parseClockMinutes_shape (stripPT s.toList)
    by_cases hS : (stripPT s.toList).contains 'S'
    · have h : parseGameClock (.pystr s) = parseClockSecondsOnly (stripPT s.toList) := by
        show (if _ then _ else if _ then _ else if _ then _ else _) = _
        rw [if_neg hs, if_neg hM, if_pos hS]
      rw [h]
      exact parseClockSecondsOnly_shape (stripPT s.toList)
    have h : parseGameClock (.pystr s) = clockFormat 0 0 := by
      show (if _ then _ else if _ then _ else if _ then _ else _) = _
      rw [if_neg hs, if_neg hM, if_neg hS]
    rw [h]
    exact Or.inr ⟨0, 0, rfl⟩

/-! ## Rate limiting (src/nba-analytics/services/data_ingestion.py lines 50-61 and
src/nba-analytics/services/historical_ingestion.py lines 35-49)

Both service classes carry their own `last_request_time` (initialised to 0 in
`__init__`) and an identical `_rate_limit` method with `REQUEST_DELAY = 0.6`:
compute `elapsed = time.time() - self.last_request_time`, sleep the remainder
if `elapsed < REQUEST_DELAY`, then store `time.time()`.  Wall-clock time is
embedded as ℚ; `time.sleep` is exact and no other time passes inside the call,
so the `time.time()` after the sleep equals the computed return instant (real
delays only increase every quantity bounded below here).  Crucially there are
two independent limiter states in the process: module-level singletons
`ingestion_service` (data_ingestion.py line 1028) and
`historical_ingestion_service` (historical_ingestion.py line 384). -/

/-- `REQUEST_DELAY = 0.6` seconds. -/
def REQUEST_DELAY : ℚ := 3/5

/-- The mutable limiter state of one service instance. -/
structure RLState where
  last_request_time : ℚ

/-- Embedding of `_rate_limit`, called at wall-clock instant `now`: returns the
instant at which the call returns together with the updated state. -/
def rateLimit (now : ℚ) (st : RLState) : ℚ × RLState :=
  if now - st.last_request_time < REQUEST_DELAY then
    (now + (REQUEST_DELAY - (now - st.last_request_time)),
     ⟨now + (REQUEST_DELAY - (now - st.last_request_time))⟩)
  else (now, ⟨now⟩)

/-- `NBADataIngestionService.__init__`: `self.last_request_time = 0`. -/
def ingestionServiceRL : RLState := ⟨0⟩

/-- `HistoricalDataIngestionService.__init__`: `self.last_request_time = 0`. -/
def historicalServiceRL : RLState := ⟨0⟩

/-- A run of consecutive `_rate_limit` calls against a single service instance:
call `n+1` is issued `g (n+1) ≥ 0` after call `n` returned.  The first call is
issued at instant `t0` against the freshly constructed state. -/
def acqSeq (g : ℕ → ℚ) (t0 : ℚ) : ℕ → ℚ × RLState
  | 0 => rateLimit t0 ⟨0⟩
  | n + 1 => rateLimit ((acqSeq g t0 n).1 + g (n + 1)) (acqSeq g t0 n).2

theorem rateLimit_state (now : ℚ) (st : RLState) :
    (rateLimit now st).2.last_request_time = (rateLimit now st).1 := by
  unfold rateLimit
  split_ifs <;> rfl

theorem rateLimit_return_ge (now : ℚ) (st : RLState) :
    st.last_request_time + REQUEST_DELAY ≤ (rateLimit now st).1 := by
  unfold rateLimit
  split_ifs with hlt
  · dsimp only
    linarith
  · dsimp only
    linarith [not_lt.mp hlt]

theorem acqSeq_state (g : ℕ → ℚ) (t0 : ℚ) (n : ℕ) :
    (acqSeq g t0 n).2.last_request_time = (acqSeq g t0 n).1 := by
  cases n with
  | zero => exact rateLimit_state t0 ⟨0⟩
  | succ n => exact rateLimit_state _ _

/-- C7 counterexample to the "single shared limiter across the whole process"
reading: the ingestion service and the historical service each hold their own
`last_request_time`, so an acquire on one does not delay an acquire on the
other.  Both fresh instances acquire at instant 100: the first returns at 100,
and the second — issued at the very instant the first returned — also returns
at 100.  Two consecutive process-wide acquisitions thus take 0 wall-clock time,
although the claim demands at least (2−1) × 0.6. -/
theorem rateLimit_not_shared_across_services :
    (rateLimit 100 ingestionServiceRL).1 = 100 ∧
    (rateLimit ((rateLimit 100 ingestionServiceRL).1) historicalServiceRL).1 = 100 ∧
    (rateLimit ((rateLimit 100 ingestionServiceRL).1) historicalServiceRL).1 -
      (rateLimit 100 ingestionServiceRL).1 < (2 - 1) * REQUEST_DELAY := by
  have h1 : (rateLimit 100 ingestionServiceRL).1 = 100 := by
    unfold rateLimit ingestionServiceRL REQUEST_DELAY
    rw [if_neg (by norm_num)]
  have h2 : (rateLimit 100 historicalServiceRL).1 = 100 := by
    unfold rateLimit historicalServiceRL REQUEST_DELAY
    rw [if_neg (by norm_num)]
  refine ⟨h1, ?_, ?_⟩
  · rw [h1, h2]
  · rw [h1, h2]
    norm_num [REQUEST_DELAY]

/-- C7 (amended): each service instance has its own rate limiter; on any ONE
instance, N consecutive `_rate_limit` calls — each issued no earlier than the
previous returned — span at least (N−1) × REQUEST_DELAY of wall-clock time:
the n-th return instant is at least the first plus n × REQUEST_DELAY. -/
theorem rateLimit_consecutive_bound (g : ℕ → ℚ) (t0 : ℚ) (n : ℕ)
    (hg : ∀ i, 0 ≤ g i) :
    (acqSeq g t0 0).1 + n * REQUEST_DELAY ≤ (acqSeq g t0 n).1 := by
  induction n with
  | zero => simp
  | succ n ih =>
    have hstep : (acqSeq g t0 n).1 + REQUEST_DELAY ≤ (acqSeq g t0 (n + 1)).1 := by
      have := rateLimit_return_ge ((acqSeq g t0 n).1 + g (n + 1)) (acqSeq g t0 n).2
      rw [acqSeq_state] at this
      exact this
    push_cast
    have : (n : ℚ) * REQUEST_DELAY + REQUEST_DELAY = (n + 1) * REQUEST_DELAY := by ring
    linarith

/-- C7 witness: three consecutive acquisitions issued back-to-back on one
instance, starting at instant 0, return no earlier than 2 × 0.6 after the
first return. -/
theorem rateLimit_consecutive_bound_witness :
    (acqSeq (fun _ => 0) 0 0).1 + 2 * REQUEST_DELAY ≤ (acqSeq (fun _ => 0) 0 2).1 := by
  have h := rateLimit_consecutive_bound (fun _ => 0) 0 2 (fun _ => le_refl 0)
  norm_num at h ⊢
  exact h

/-! ## Model metadata activation (src/nba-analytics/ml/training_pipeline.py,
_save_model_metadata, lines 196-233)

Inside one `db_manager.get_session()` unit of work the pipeline first issues
`UPDATE model_metadata SET is_active = false WHERE is_active = true`, then adds
one new row with `is_active=True`, then commits once; the whole table change
becomes visible atomically, so the embedding is a single function on the list
of rows.  Only the fields relevant to the activity invariant are carried. -/

/-- A `ModelMetadata` row (activity-relevant fields). -/
structure ModelMetadataRow where
  model_version : String
  model_type : String
  is_active : Bool

/-- Embedding of `_save_model_metadata`: deactivate every currently active row,
then insert the new row with `is_active=True`, in one transaction. -/
def saveModelMetadata (rows : List ModelMetadataRow) (version : String) :
    List ModelMetadataRow :=
  (rows.map (fun r => if r.is_active then { r with is_active := false } else r)) ++
    [{ model_version := version, model_type := "lstm", is_active := true }]

/-- The number of rows with `is_active=true`. -/
def countActive (rows : List ModelMetadataRow) : ℕ :=
  (rows.filter (·.is_active)).length

theorem countActive_deactivated (rows : List ModelMetadataRow) :
    countActive (rows.map (fun r => if r.is_active then { r with is_active := false } else r)) = 0 := by
  induction rows with
  | nil => rfl
  | cons r rs ih =>
    unfold countActive at ih ⊢
    by_cases hr : r.is_active
    · simp [hr, ih]
    · simp [hr, ih]

/-- C8: after any `_save_model_metadata`, exactly one `ModelMetadata` row is
active — whatever the prior table contents.  Hence at most one row is ever
active and, once an initial model has been saved, a reader (who sees only
committed states, the save being one unit of work) never observes zero active
rows. -/
theorem saveModelMetadata_one_active (rows : List ModelMetadataRow) (version : String) :
    countActive (saveModelMetadata rows version) = 1 := by
  unfold saveModelMetadata countActive
  rw [List.filter_append]
  have h := countActive_deactivated rows
  unfold countActive at h
  simp [h]

/-! ## Prediction cache invalidation (src/nba-analytics/services/prediction_service.py
lines 200-231 and 331-352; src/nba-analytics/services/cache.py lines 113-120)

The cache is a set of string keys with values (Redis).  `CacheManager.delete`
issues `self.client.delete(key)` — the Redis `DEL` command, which removes
exactly the named key; pattern expansion is only performed by the separate
`delete_pattern` (cache.py lines 122-131, `client.keys(pattern)` then delete),
which `PredictionService.invalidate_cache` does NOT call.
`get_all_predictions` caches under `f"predictions:all:{season}"` (line 59) and
`get_team_prediction` under `f"predictions:team:{season}:{team_id}"` (line
157).  `generate_fresh_predictions` writes fresh rows via the training
pipeline and then calls `invalidate_cache(season)`. -/

/-- A cache state: association list from key to cached JSON payload. -/
abbrev Cache := List (String × String)

/-- The all-teams predictions cache key for a season. -/
def predictionsAllKey (season : String) : String := "predictions:all:" ++ season

/-- The per-team prediction cache key. -/
def teamPredictionKey (season : String) (teamId : ℕ) : String :=
  "predictions:team:" ++ season ++ ":" ++ toString teamId

/-- Embedding of `CacheManager.delete`: Redis `DEL`, removing exactly the
given key. -/
def cacheDelete (c : Cache) (key : String) : Cache :=
  c.filter (fun kv => kv.1 ≠ key)

/-- Embedding of `PredictionService.invalidate_cache` (lines 331-352): call
`cache_manager.delete` — exact-key deletion — on the two pattern strings
`predictions:all:{season}` and the literal `predictions:team:{season}:*`. -/
def invalidateCache (season : String) (c : Cache) : Cache :=
  cacheDelete (cacheDelete c (predictionsAllKey season))
    ("predictions:team:" ++ season ++ ":*")

/-- Cache effect of `generate_fresh_predictions` (lines 200-231): the fresh
prediction rows are written through the training pipeline first, then the
season's cache entries are invalidated. -/
def generateFreshPredictionsCache (season : String) (c : Cache) : Cache :=
  invalidateCache season c

/-- A concrete cache populated by a `get_all_predictions` call and one
`get_team_prediction` call for team 5, season 2024-25. -/
def cacheCE : Cache :=
  [(predictionsAllKey "2024-25", "all-payload"),
   (teamPredictionKey "2024-25" 5, "team5-payload")]

/-- C9: after `generate_fresh_predictions("2024-25")`, the per-team cached
prediction for team 5 is still present — `invalidate_cache` deletes the
all-teams key and the literal key `"predictions:team:2024-25:*"` (Redis `DEL`
does no globbing), so the claim that every per-team key is invalidated fails. -/
theorem generateFreshPredictions_leaves_team_key :
    generateFreshPredictionsCache "2024-25" cacheCE =
      [(teamPredictionKey "2024-25" 5, "team5-payload")] ∧
    (teamPredictionKey "2024-25" 5) ∈
      (generateFreshPredictionsCache "2024-25" cacheCE).map Prod.fst ∧
    (predictionsAllKey "2024-25") ∉
      (generateFreshPredictionsCache "2024-25" cacheCE).map Prod.fst := by
  refine ⟨by decide, by decide, by decide⟩

/-! ## Team ingestion upsert (src/nba-analytics/services/data_ingestion.py,
ingest_teams, lines 115-184)

The `teams` table has a serial primary key `id`, a unique natural key `nba_id`
(the `ON CONFLICT` index), and mutable attribute columns.  For each upstream
record, `ingest_teams` computes the conference from a fixed list of Eastern
abbreviations and executes `INSERT ... ON CONFLICT (nba_id) DO UPDATE SET
abbreviation, name, city, conference, updated_at` — on collision the existing
row (unique, by the index) keeps its `id` and gets its mutable fields
overwritten with the `updated_at` timestamp bumped; otherwise a fresh row with
the next serial `id` is appended.  Timestamps are ℕ ticks. -/

/-- A row of the `teams` table. -/
structure TeamRow where
  id : ℕ
  nba_id : ℕ
  abbreviation : String
  name : String
  city : String
  conference : String
  updated_at : ℕ
deriving DecidableEq

/-- The `teams` table with its serial-id counter. -/
structure TeamsTable where
  rows : List TeamRow
  nextId : ℕ
deriving DecidableEq

/-- One record of the `nba_teams.get_teams()` payload. -/
structure TeamData where
  id : ℕ
  abbreviation : String
  nickname : String
  city : String
deriving DecidableEq

/-- The hard-coded Eastern-conference abbreviations (lines 132-148). -/
def eastTeams : List String :=
  ["BOS", "BKN", "NYK", "PHI", "TOR", "CHI", "CLE", "DET", "IND", "MIL",
   "ATL", "CHA", "MIA", "ORL", "WAS"]

/-- `conference = "East" if team_data["abbreviation"] in east_teams else "West"`. -/
def conferenceOf (d : TeamData) : String :=
  if eastTeams.contains d.abbreviation then "East" else "West"

/-- The `DO UPDATE SET` clause: overwrite mutable fields, bump `updated_at`;
`id` and `nba_id` are untouched. -/
def updatedTeamRow (r : TeamRow) (d : TeamData) (now : ℕ) : TeamRow :=
  { r with abbreviation := d.abbreviation, name := d.nickname, city := d.city,
           conference := conferenceOf d, updated_at := now }

/-- Apply the `DO UPDATE` to the (unique) conflicting row. -/
def updateFirstTeam (d : TeamData) (now : ℕ) : List TeamRow → List TeamRow
  | [] => []
  | r :: rs =>
    if r.nba_id = d.id then updatedTeamRow r d now :: rs
    else r :: updateFirstTeam d now rs

/-- Whether the table already contains the natural key `k`. -/
def seenKey (rows : List TeamRow) (k : ℕ) : Bool :=
  rows.any (fun r => r.nba_id = k)

/-- The row holding natural key `k`, if any. -/
def findTeam (rows : List TeamRow) (k : ℕ) : Option TeamRow :=
  rows.find? (fun r => r.nba_id = k)

/-- The `INSERT ... ON CONFLICT ("nba_id") DO UPDATE` of lines 154-174. -/
def upsertTeam (tbl : TeamsTable) (d : TeamData) (now : ℕ) : TeamsTable :=
  if seenKey tbl.rows d.id then
    { tbl with rows := updateFirstTeam d now tbl.rows }
  else
    { rows := tbl.rows ++
        [{ id := tbl.nextId, nba_id := d.id, abbreviation := d.abbreviation,
           name := d.nickname, city := d.city, conference := conferenceOf d,
           updated_at := now }],
      nextId := tbl.nextId + 1 }

/-- Embedding of `ingest_teams` (lines 115-184): upsert every payload record in
order; the returned count is the number of records processed. -/
def ingest_teams (tbl : TeamsTable) (payload : List TeamData) (now : ℕ) :
    TeamsTable × ℕ :=
  (payload.foldl (fun acc d => upsertTeam acc d now) tbl, payload.length)

theorem updateFirstTeam_length (d : TeamData) (now : ℕ) (rows : List TeamRow) :
    (updateFirstTeam d now rows).length = rows.length := by
  induction rows with
  | nil => rfl
  | cons r rs ih =>
    unfold updateFirstTeam
    split_ifs <;> simp [ih]

theorem updateFirstTeam_keys (d : TeamData) (now : ℕ) (rows : List TeamRow) :
    (updateFirstTeam d now rows).map (·.nba_id) = rows.map (·.nba_id) := by
  induction rows with
  | nil => rfl
  | cons r rs ih =>
    unfold updateFirstTeam
    split_ifs with h
    · simp [updatedTeamRow]
    · simp [ih]

theorem seenKey_iff_mem (rows : List TeamRow) (k : ℕ) :
    seenKey rows k = true ↔ k ∈ rows.map (·.nba_id) := by
  unfold seenKey
  simp [List.any_eq_true]

theorem upsertTeam_keys_of_seen {tbl : TeamsTable} {d : TeamData} (now : ℕ)
    (h : seenKey tbl.rows d.id = true) :
    (upsertTeam tbl d now).rows.map (·.nba_id) = tbl.rows.map (·.nba_id) := by
  unfold upsertTeam
  rw [if_pos h]
  exact updateFirstTeam_keys d now tbl.rows

theorem upsertTeam_keys_of_unseen {tbl : TeamsTable} {d : TeamData} (now : ℕ)
    (h : ¬ seenKey tbl.rows d.id = true) :
    (upsertTeam tbl d now).rows.map (·.nba_id) = tbl.rows.map (·.nba_id) ++ [d.id] := by
  unfold upsertTeam
  rw [if_neg h]
  simp

theorem upsertTeam_seen_after (tbl : TeamsTable) (d : TeamData) (now : ℕ) :
    seenKey (upsertTeam tbl d now).rows d.id = true := by
  rw [seenKey_iff_mem]
  by_cases h : seenKey tbl.rows d.id = true
  · rw [upsertTeam_keys_of_seen now h]
    exact (seenKey_iff_mem tbl.rows d.id).mp h
  · rw [upsertTeam_keys_of_unseen now h]
    simp

theorem upsertTeam_seen_mono {tbl : TeamsTable} {k : ℕ} (d : TeamData) (now : ℕ)
    (h : seenKey tbl.rows k = true) :
    seenKey (upsertTeam tbl d now).rows k = true := by
  rw [seenKey_iff_mem] at h ⊢
  by_cases hseen : seenKey tbl.rows d.id = true
  · rw [upsertTeam_keys_of_seen now hseen]
    exact h
  · rw [upsertTeam_keys_of_unseen now hseen]
    exact List.mem_append_left _ h

theorem foldUpsert_seen_mono (payload : List TeamData) (now : ℕ) (tbl : TeamsTable)
    {k : ℕ} (h : seenKey tbl.rows k = true) :
    seenKey ((payload.foldl (fun acc d => upsertTeam acc d now) tbl)).rows k = true := by
  induction payload generalizing tbl with
  | nil => exact h
  | cons d ds ih =>
    exact ih (upsertTeam tbl d now) (upsertTeam_seen_mono d now h)

theorem foldUpsert_seen_payload (payload : List TeamData) (now : ℕ) (tbl : TeamsTable)
    {d : TeamData} (hd : d ∈ payload) :
    seenKey ((payload.foldl (fun acc d => upsertTeam acc d now) tbl)).rows d.id = true := by
  induction payload generalizing tbl with
  | nil => cases hd
  | cons e es ih =>
    rcases List.mem_cons.mp hd with h | h
    · subst h
      exact foldUpsert_seen_mono es now (upsertTeam tbl d now)
        (upsertTeam_seen_after tbl d now)
    · exact ih (upsertTeam tbl e now) h

theorem foldUpsert_keys_of_all_seen (payload : List TeamData) (now : ℕ) (tbl : TeamsTable)
    (h : ∀ d ∈ payload, seenKey tbl.rows d.id = true) :
    ((payload.foldl (fun acc d => upsertTeam acc d now) tbl)).rows.map (·.nba_id) =
      tbl.rows.map (·.nba_id) := by
  induction payload generalizing tbl with
  | nil => rfl
  | cons d ds ih =>
    have hd : seenKey tbl.rows d.id = true := h d (List.mem_cons_self d ds)
    have hkeys := upsertTeam_keys_of_seen now hd
    have hrest : ∀ e ∈ ds, seenKey (upsertTeam tbl d now).rows e.id = true := by
      intro e he
      rw [seenKey_iff_mem, hkeys, ← seenKey_iff_mem]
      exact h e (List.mem_cons_of_mem d he)
    calc ((ds.foldl (fun acc d => upsertTeam acc d now) (upsertTeam tbl d now))).rows.map (·.nba_id)
        = (upsertTeam tbl d now).rows.map (·.nba_id) := ih (upsertTeam tbl d now) hrest
      _ = tbl.rows.map (·.nba_id) := hkeys

theorem findTeam_updateFirstTeam {rows : List TeamRow} {d : TeamData} {r : TeamRow}
    (now : ℕ) (h : findTeam rows d.id = some r) :
    findTeam (updateFirstTeam d now rows) d.id = some (updatedTeamRow r d now) := by
  induction rows with
  | nil => simp [findTeam] at h
  | cons r0 rs ih =>
    unfold findTeam at h ⊢
    unfold updateFirstTeam
    by_cases h0 : r0.nba_id = d.id
    · rw [if_pos h0]
      rw [List.find?_cons_of_pos _ (by simp [h0])] at h
      rw [List.find?_cons_of_pos _ (by simp [updatedTeamRow, h0])]
      cases h
      rfl
    · rw [if_neg h0]
      rw [List.find?_cons_of_neg _ (by simp [h0])] at h
      rw [List.find?_cons_of_neg _ (by simp [h0])]
      exact ih h

theorem findTeam_isSome_seen {rows : List TeamRow} {k : ℕ} {r : TeamRow}
    (h : findTeam rows k = some r) : seenKey rows k = true := by
  unfold findTeam at h
  have hmem := List.mem_of_find?_eq_some h
  have hpred := List.find?_some h
  rw [seenKey_iff_mem]
  simp at hpred
  exact List.mem_map.mpr ⟨r, hmem, hpred⟩

/-- C1: team ingestion upserts by natural key.  If the natural key `d.id` is
already present (held by row `r`), upserting a payload for it (i) leaves the
row count unchanged — no duplicate row is inserted, (ii) overwrites exactly the
mutable fields of that row and bumps `updated_at`, and (iii) preserves the
row's primary key `id`.  Consequently re-ingesting the identical payload twice
produces identical row counts (idempotence of the second run), for any payload
and any starting table. -/
theorem ingest_teams_upsert_natural_key (tbl : TeamsTable) (payload : List TeamData)
    (d : TeamData) (r : TeamRow) (now t2 : ℕ)
    (h : findTeam tbl.rows d.id = some r) :
    ((upsertTeam tbl d now).rows.length = tbl.rows.length ∧
     findTeam (upsertTeam tbl d now).rows d.id = some (updatedTeamRow r d now) ∧
     (updatedTeamRow r d now).id = r.id) ∧
    ((ingest_teams (ingest_teams tbl payload now).1 payload t2).1.rows.length =
      (ingest_teams tbl payload now).1.rows.length) := by
  have hseen : seenKey tbl.rows d.id = true := findTeam_isSome_seen h
  refine ⟨⟨?_, ?_, rfl⟩, ?_⟩
  · unfold upsertTeam
    rw [if_pos hseen]
    exact updateFirstTeam_length d now tbl.rows
  · unfold upsertTeam
    rw [if_pos hseen]
    exact findTeam_updateFirstTeam now h
  · unfold ingest_teams
    have hall : ∀ e ∈ payload,
        seenKey ((payload.foldl (fun acc d => upsertTeam acc d now) tbl)).rows e.id = true :=
      fun e he => foldUpsert_seen_payload payload now tbl he
    have hkeys := foldUpsert_keys_of_all_seen payload t2
      ((payload.foldl (fun acc d => upsertTeam acc d now) tbl)) hall
    have := congrArg List.length hkeys
    simpa using this

/-- C1 witness: a table holding team 1 and a payload re-ingesting team 1. -/
theorem ingest_teams_upsert_natural_key_witness :
    ((upsertTeam ⟨[⟨7, 1, "BOS", "Celtics", "Boston", "East", 0⟩], 8⟩
        ⟨1, "BOS", "Celtics", "Boston"⟩ 5).rows.length = 1 ∧
     findTeam (upsertTeam ⟨[⟨7, 1, "BOS", "Celtics", "Boston", "East", 0⟩], 8⟩
        ⟨1, "BOS", "Celtics", "Boston"⟩ 5).rows 1 =
       some (updatedTeamRow ⟨7, 1, "BOS", "Celtics", "Boston", "East", 0⟩
         ⟨1, "BOS", "Celtics", "Boston"⟩ 5) ∧
     (updatedTeamRow ⟨7, 1, "BOS", "Celtics", "Boston", "East", 0⟩
       ⟨1, "BOS", "Celtics", "Boston"⟩ 5).id = 7) ∧
    ((ingest_teams (ingest_teams ⟨[⟨7, 1, "BOS", "Celtics", "Boston", "East", 0⟩], 8⟩
        [⟨1, "BOS", "Celtics", "Boston"⟩] 5).1 [⟨1, "BOS", "Celtics", "Boston"⟩] 6).1.rows.length =
      (ingest_teams ⟨[⟨7, 1, "BOS", "Celtics", "Boston", "East", 0⟩], 8⟩
        [⟨1, "BOS", "Celtics", "Boston"⟩] 5).1.rows.length) :=
  ingest_teams_upsert_natural_key ⟨[⟨7, 1, "BOS", "Celtics", "Boston", "East", 0⟩], 8⟩
    [⟨1, "BOS", "Celtics", "Boston"⟩] ⟨1, "BOS", "Celtics", "Boston"⟩
    ⟨7, 1, "BOS", "Celtics", "Boston", "East", 0⟩ 5 6 (by decide)

/-! ## Training-sequence construction (src/nba-analytics/services/historical_ingestion.py,
build_training_sequences, lines 250-347)

Inputs as the code sees them: the team lookup result (`None` → sentinel), the
game-log list fetched from upstream (newest first; the code reverses it into
chronological order), and the `TeamSeasonStats` row for the (team, season)
(`None` → sentinel, line 331).  Each of the `sequence_length` steps slices
`step_size` games and emits the 20-entry feature list of lines 301-322; the
target is the 9-entry list of lines 334-344.  Python `x or default` replaces
both `None` and `0`/`0.0` by the default, hence `pyOr`.  Pandas `.mean()` of an
empty slice is NaN; ℚ division by zero yields 0 instead — no statement proved
here evaluates a mean over an empty window. -/

/-- One row of the fetched game log (fields used by the sequence builder). -/
structure GameLog where
  wl : Option String
  points : ℚ
  fg_pct : ℚ
  fg3_pct : ℚ
  ft_pct : ℚ
  oreb : ℚ
  dreb : ℚ
  reb : ℚ
  ast : ℚ
  stl : ℚ
  blk : ℚ
  tov : ℚ
  plus_minus : ℚ
deriving DecidableEq

/-- The `TeamSeasonStats` row fields read for the target vector (nullable
columns are `Option`). -/
structure TeamSeasonStats where
  wins : Option ℚ
  losses : Option ℚ
  win_percentage : Option ℚ
  conference_rank : Option ℚ
  playoff_seed : Option ℚ
  points_per_game : Option ℚ
  opponent_points_per_game : Option ℚ
  pace : Option ℚ
  defensive_rating : Option ℚ
deriving DecidableEq

/-- Python `x or default` on a nullable numeric column: `None` and zero are
falsy. -/
def pyOr (x : Option ℚ) (d : ℚ) : ℚ :=
  match x with
  | none => d
  | some v => if v = 0 then d else v

/-- `window["wl"].apply(lambda x: 1 if x == "W" else 0)`. -/
def winInd (g : GameLog) : ℚ := if g.wl = some "W" then 1 else 0

/-- `window["wl"].apply(lambda x: 1 if x == "L" else 0)`. -/
def lossInd (g : GameLog) : ℚ := if g.wl = some "L" then 1 else 0

/-- Pandas `.mean()` over a list of rationals (sum / count). -/
def listMean (l : List ℚ) : ℚ := l.sum / l.length

/-- The 20-entry feature list for time step `i` (lines 301-322), over the
chronologically ordered log `df`. -/
def stepFeatures (df : List GameLog) (stepSize i : ℕ) : List ℚ :=
  [((i * stepSize + stepSize : ℕ) : ℚ),
   ((df.drop (i * stepSize)).take stepSize).map winInd |>.sum,
   ((df.drop (i * stepSize)).take stepSize).map lossInd |>.sum,
   listMean ((df.take (i * stepSize + stepSize)).map winInd),
   listMean (((df.drop (i * stepSize)).take stepSize).map (·.points)),
   listMean (((df.drop (i * stepSize)).take stepSize).map (·.fg_pct)) * 100,
   listMean (((df.drop (i * stepSize)).take stepSize).map (·.fg3_pct)) * 100,
   listMean (((df.drop (i * stepSize)).take stepSize).map (·.ft_pct)) * 100,
   listMean (((df.drop (i * stepSize)).take stepSize).map (·.ast)),
   listMean (((df.drop (i * stepSize)).take stepSize).map (·.reb)),
   listMean (((df.drop (i * stepSize)).take stepSize).map (·.tov)),
   listMean (((df.drop (i * stepSize)).take stepSize).map (·.stl)),
   listMean (((df.drop (i * stepSize)).take stepSize).map (·.blk)),
   listMean (((df.drop (i * stepSize)).take stepSize).map (·.oreb)),
   listMean (((df.drop (i * stepSize)).take stepSize).map (·.dreb)),
   listMean (((df.drop (i * stepSize)).take stepSize).map (·.plus_minus)),
   100, 110, 110, 0]

/-- The 9-entry target vector (lines 334-344). -/
def seasonTargets (st : TeamSeasonStats) : List ℚ :=
  [pyOr st.wins 0,
   pyOr st.losses 0,
   pyOr st.win_percentage 0,
   pyOr st.conference_rank 15,
   (match st.playoff_seed with
    | some s => if s ≠ 0 ∧ s ≤ 10 then 1 else 0
    | none => 0),
   pyOr st.points_per_game 110,
   pyOr st.opponent_points_per_game 110,
   pyOr st.pace 100,
   pyOr st.defensive_rating 110]

/-- Embedding of `build_training_sequences` (lines 250-347).  `teamFound` is
whether the `Team` query returned a row; `gameLogs` is the upstream log, newest
first; `seasonStats` the `TeamSeasonStats` lookup.  Returns `none` for the
`(None, None)` sentinel. -/
def build_training_sequences (teamFound : Bool) (gameLogs : List GameLog)
    (seasonStats : Option TeamSeasonStats) (sequence_length step_size : ℕ) :
    Option (List (List ℚ) × List ℚ) :=
  if ¬ teamFound then none
  else if gameLogs.length < sequence_length * step_size then none
  else
    match seasonStats with
    | none => none
    | some st =>
      some ((List.range sequence_length).map (stepFeatures gameLogs.reverse step_size),
            seasonTargets st)

/-- A concrete game-log row: a home win with representative box-score stats. -/
def gameLogW : GameLog :=
  { wl := some "W", points := 110, fg_pct := 47/100, fg3_pct := 36/100,
    ft_pct := 78/100, oreb := 10, dreb := 33, reb := 43, ast := 25, stl := 7,
    blk := 5, tov := 13, plus_minus := 5 }

/-- A concrete `TeamSeasonStats` row. -/
def seasonStats50 : TeamSeasonStats :=
  { wins := some 50, losses := some 32, win_percentage := some (61/100),
    conference_rank := some 3, playoff_seed := some 3,
    points_per_game := some 114, opponent_points_per_game := some 110,
    pace := some 99, defensive_rating := some 112 }

/-- C2 counterexample: a team with exactly `sequence_length * step_size = 2`
completed games still gets the `(None, None)` sentinel when no
`TeamSeasonStats` row exists for the (team, season) (line 331), contradicting
the claim that the threshold alone guarantees a full feature array. -/
theorem build_training_sequences_needs_season_stats :
    [gameLogW, gameLogW].length = 2 * 1 ∧
    build_training_sequences true [gameLogW, gameLogW] none 2 1 = none := by
  constructor
  · rfl
  · rfl

/-- C2 (amended): `build_training_sequences` returns the `(None, None)`
sentinel — without raising — whenever the game-log count is strictly below
`sequence_length * step_size`, whatever the season-stats lookup; and at exactly
the threshold, provided a `TeamSeasonStats` row exists for the (team, season),
it returns a full `(sequence_length, 20)` feature array together with the
nine-scalar target vector. -/
theorem build_training_sequences_threshold (teamFound : Bool)
    (logs logsEq : List GameLog) (stAny : Option TeamSeasonStats)
    (st : TeamSeasonStats) (L S : ℕ)
    (hlt : logs.length < L * S) (heq : logsEq.length = L * S) :
    build_training_sequences teamFound logs stAny L S = none ∧
    ∃ fs ts, build_training_sequences true logsEq (some st) L S = some (fs, ts) ∧
      fs.length = L ∧ (∀ row ∈ fs, row.length = 20) ∧ ts.length = 9 := by
  constructor
  · unfold build_training_sequences
    by_cases ht : teamFound
    · rw [if_neg (by simpa using ht), if_pos hlt]
    · rw [if_pos (by simpa using ht)]
  · refine ⟨(List.range L).map (stepFeatures logsEq.reverse S), seasonTargets st, ?_, ?_, ?_, ?_⟩
    · unfold build_training_sequences
      rw [if_neg (by simp), if_neg (by rw [heq]; exact lt_irrefl _)]
    · simp
    · intro row hrow
      rcases List.mem_map.mp hrow with ⟨i, _, hi⟩
      rw [← hi]
      rfl
    · rfl

/-- C2 witness: at `sequence_length = 2`, `step_size = 1`, one game log is
below the threshold and two are exactly at it. -/
theorem build_training_sequences_threshold_witness :
    build_training_sequences true [gameLogW] (some seasonStats50) 2 1 = none ∧
    ∃ fs ts, build_training_sequences true [gameLogW, gameLogW] (some seasonStats50) 2 1 =
        some (fs, ts) ∧
      fs.length = 2 ∧ (∀ row ∈ fs, row.length = 20) ∧ ts.length = 9 :=
  build_training_sequences_threshold true [gameLogW] [gameLogW, gameLogW]
    (some seasonStats50) seasonStats50 2 1 (by decide) (by decide)

/-! ## Preprocessor scaling (src/nba-analytics/ml/data_preprocessor.py,
LSTMDataPreprocessor, lines 14-190)

The constructor (lines 25-38) picks `MinMaxScaler()` for features when
`feature_scaler_type == "minmax"` (the default) and `StandardScaler()`
otherwise; the target scaler is always `MinMaxScaler()`; `is_fitted` starts
`False`.  `fit` (lines 54-68) reshapes X from (samples, seq, features) to
(samples*seq, features) — here, `List.flatten` — and fits both scalers.

sklearn internals embedded per column:
* `MinMaxScaler` (default range (0,1)): `scale_ = 1 / handle_zeros(data_max -
  data_min)`, `min_ = 0 - data_min * scale_`; `transform: x*scale_ + min_`;
  `inverse_transform: (x - min_)/scale_`; `_handle_zeros_in_scale` replaces a
  zero range by 1.
* `StandardScaler`: `mean_`, `scale_ = handle_zeros(sqrt(var))` (population
  variance); `transform: (x - mean_)/scale_`; `inverse: x*scale_ + mean_`.
  The float square root is embedded by the integer-sqrt-based `Rat.sqrt`; the
  properties proved use only that the `handle_zeros` output is nonzero, which
  any square-root implementation shares.

A scaler's per-column fitted parameters are a list of pairs; `transform` on a
row zips the parameters with the row (shapes agree whenever the input has the
fitted number of columns, as sklearn enforces).  The `if not self.is_fitted:
raise RuntimeError(...)` guards are embedded as `Except.error` branches. -/

/-- `sklearn.preprocessing._data._handle_zeros_in_scale`: a zero scale becomes 1. -/
def handleZerosInScale (s : ℚ) : ℚ := if s = 0 then 1 else s

/-- Minimum of a list of rationals (per-column `data_min_`). -/
def listMin : List ℚ → ℚ
  | [] => 0
  | x :: xs => xs.foldl min x

/-- Maximum of a list of rationals (per-column `data_max_`). -/
def listMax : List ℚ → ℚ
  | [] => 0
  | x :: xs => xs.foldl max x

/-- Column `j` of a row-major matrix. -/
def colVals (rows : List (List ℚ)) (j : ℕ) : List ℚ :=
  rows.map (fun r => r.getD j 0)

/-- Fitted per-column scaler state: `minmax` carries `(scale_, min_)` pairs,
`standard` carries `(mean_, scale_)` pairs. -/
inductive FittedScaler where
  | minmax (prms : List (ℚ × ℚ))
  | standard (prms : List (ℚ × ℚ))
deriving DecidableEq

/-- `MinMaxScaler().fit(rows)` with `nf` columns. -/
def fitMinMax (rows : List (List ℚ)) (nf : ℕ) : FittedScaler :=
  .minmax ((List.range nf).map (fun j =>
    (1 / handleZerosInScale (listMax (colVals rows j) - listMin (colVals rows j)),
     0 - listMin (colVals rows j) *
       (1 / handleZerosInScale (listMax (colVals rows j) - listMin (colVals rows j))))))

/-- `StandardScaler().fit(rows)` with `nf` columns (population variance). -/
def fitStandard (rows : List (List ℚ)) (nf : ℕ) : FittedScaler :=
  .standard ((List.range nf).map (fun j =>
    (listMean (colVals rows j),
     handleZerosInScale (Rat.sqrt
       (listMean ((colVals rows j).map (fun x => (x - listMean (colVals rows j)) ^ 2)))))))

/-- `scaler.transform` on one row. -/
def scalerTransformRow : FittedScaler → List ℚ → List ℚ
  | .minmax prms, row => List.zipWith (fun pr v => v * pr.1 + pr.2) prms row
  | .standard prms, row => List.zipWith (fun pr v => (v - pr.1) / pr.2) prms row

/-- `scaler.inverse_transform` on one row. -/
def scalerInverseRow : FittedScaler → List ℚ → List ℚ
  | .minmax prms, row => List.zipWith (fun pr v => (v - pr.2) / pr.1) prms row
  | .standard prms, row => List.zipWith (fun pr v => v * pr.2 + pr.1) prms row

/-- The preprocessor state: scaler type string, both scaler objects (their
fitted parameters; empty before any fit) and the `is_fitted` flag. -/
structure LSTMDataPreprocessor where
  feature_scaler_type : String
  feature_scaler : FittedScaler
  target_scaler : FittedScaler
  is_fitted : Bool
deriving DecidableEq

/-- `LSTMDataPreprocessor.__init__` (lines 25-38). -/
def mkPreprocessor (t : String) : LSTMDataPreprocessor :=
  { feature_scaler_type := t,
    feature_scaler := if t = "minmax" then .minmax [] else .standard [],
    target_scaler := .minmax [],
    is_fitted := false }

/-- Number of feature columns, `X.shape[2]`. -/
def numFeatures (X : List (List (List ℚ))) : ℕ := ((X.headD []).headD []).length

/-- Number of target columns, `y.shape[1]`. -/
def numTargets (y : List (List ℚ)) : ℕ := (y.headD []).length

/-- `LSTMDataPreprocessor.fit` (lines 54-68): reshape X to (samples*seq,
features), fit the feature scaler chosen at construction and the MinMax target
scaler, and set `is_fitted`. -/
def LSTMDataPreprocessor.fit (p : LSTMDataPreprocessor) (X : List (List (List ℚ)))
    (y : List (List ℚ)) : LSTMDataPreprocessor :=
  { p with
    feature_scaler :=
      if p.feature_scaler_type = "minmax" then fitMinMax X.flatten (numFeatures X)
      else fitStandard X.flatten (numFeatures X),
    target_scaler := fitMinMax y (numTargets y),
    is_fitted := true }

/-- `LSTMDataPreprocessor.transform` (lines 75-105): raises unless fitted, then
scales every time-step row of every sample and optionally the target rows. -/
def LSTMDataPreprocessor.transform (p : LSTMDataPreprocessor)
    (X : List (List (List ℚ))) (y : Option (List (List ℚ))) :
    Except String (List (List (List ℚ)) × Option (List (List ℚ))) :=
  if p.is_fitted then
    .ok (X.map (fun sample => sample.map (scalerTransformRow p.feature_scaler)),
         y.map (fun ys => ys.map (scalerTransformRow p.target_scaler)))
  else .error "Scalers must be fitted before transform. Call fit() first."

/-- `LSTMDataPreprocessor.inverse_transform_targets` (lines 125-138). -/
def LSTMDataPreprocessor.inverse_transform_targets (p : LSTMDataPreprocessor)
    (ys : List (List ℚ)) : Except String (List (List ℚ)) :=
  if p.is_fitted then .ok (ys.map (scalerInverseRow p.target_scaler))
  else .error "Scalers must be fitted before inverse_transform."

/-- `LSTMDataPreprocessor.inverse_transform_features` (lines 140-156); the
reshape to (samples*seq, features) and back is the identity on the nested-list
representation. -/
def LSTMDataPreprocessor.inverse_transform_features (p : LSTMDataPreprocessor)
    (X : List (List (List ℚ))) : Except String (List (List (List ℚ))) :=
  if p.is_fitted then
    .ok (X.map (fun sample => sample.map (scalerInverseRow p.feature_scaler)))
  else .error "Scalers must be fitted before inverse_transform."

theorem handleZerosInScale_ne_zero (s : ℚ) : handleZerosInScale s ≠ 0 := by
  unfold handleZerosInScale
  split_ifs with h
  · norm_num
  · exact h

/-- The per-column roundtrip for any zipped transform/inverse pair. -/
theorem zipWith_roundtrip (f g : (ℚ × ℚ) → ℚ → ℚ) (prms : List (ℚ × ℚ)) (row : List ℚ)
    (hfg : ∀ pr ∈ prms, ∀ v : ℚ, g pr (f pr v) = v) (hlen : row.length = prms.length) :
    List.zipWith g prms (List.zipWith f prms row) = row := by
  induction prms generalizing row with
  | nil =>
    cases row with
    | nil => rfl
    | cons v vs => simp at hlen
  | cons pr prs ih =>
    cases row with
    | nil => simp at hlen
    | cons v vs =>
      simp only [List.zipWith_cons_cons]
      rw [hfg pr (List.mem_cons_self pr prs) v]
      rw [ih vs (fun q hq w => hfg q (List.mem_cons_of_mem pr hq) w) (by simpa using hlen)]

/-- Mapping a transform then its pointwise inverse over a list is the identity. -/
theorem list_map_roundtrip {α : Type} (f g : α → α) (l : List α)
    (h : ∀ x ∈ l, g (f x) = x) : (l.map f).map g = l := by
  induction l with
  | nil => rfl
  | cons x xs ih =>
    simp only [List.map_cons]
    rw [h x (List.mem_cons_self x xs),
        ih (fun z hz => h z (List.mem_cons_of_mem x hz))]

theorem fitMinMax_roundtrip (rows : List (List ℚ)) (nf : ℕ) (row : List ℚ)
    (hlen : row.length = nf) :
    scalerInverseRow (fitMinMax rows nf) (scalerTransformRow (fitMinMax rows nf) row) = row := by
  unfold fitMinMax scalerTransformRow scalerInverseRow
  refine zipWith_roundtrip _ _ _ row ?_ (by rw [hlen]; simp)
  intro pr hpr v
  rcases List.mem_map.mp hpr with ⟨j, _, hj⟩
  have hne : pr.1 ≠ 0 := by
    rw [← hj]
    exact one_div_ne_zero (handleZerosInScale_ne_zero _)
  field_simp

theorem fitStandard_roundtrip (rows : List (List ℚ)) (nf : ℕ) (row : List ℚ)
    (hlen : row.length = nf) :
    scalerInverseRow (fitStandard rows nf) (scalerTransformRow (fitStandard rows nf) row) = row := by
  unfold fitStandard scalerTransformRow scalerInverseRow
  refine zipWith_roundtrip _ _ _ row ?_ (by rw [hlen]; simp)
  intro pr hpr v
  rcases List.mem_map.mp hpr with ⟨j, _, hj⟩
  have hne : pr.2 ≠ 0 := by
    rw [← hj]
    exact handleZerosInScale_ne_zero _
  field_simp

/-- Roundtrip on one row through whichever feature scaler `fit` produced. -/
theorem fitted_scaler_roundtrip (t : String) (rows : List (List ℚ)) (nf : ℕ)
    (row : List ℚ) (hlen : row.length = nf) :
    scalerInverseRow (if t = "minmax" then fitMinMax rows nf else fitStandard rows nf)
      (scalerTransformRow (if t = "minmax" then fitMinMax rows nf else fitStandard rows nf) row)
      = row := by
  split_ifs with ht
  · exact fitMinMax_roundtrip rows nf row hlen
  · exact fitStandard_roundtrip rows nf row hlen

/-- C4: on any fitted preprocessor, `inverse_transform` is exactly inverse to
`transform`, for features and targets alike: for EVERY feature array `X2` and
target matrix `y2` of the shapes the preprocessor was fitted on — not merely
the fitting data itself — the roundtrip reproduces the input exactly in
rational arithmetic (hence within any floating tolerance). -/
theorem preprocessor_roundtrip (t : String) (X X2 : List (List (List ℚ)))
    (y y2 : List (List ℚ))
    (hX2 : ∀ sample ∈ X2, ∀ row ∈ sample, row.length = numFeatures X)
    (hy2 : ∀ row ∈ y2, row.length = numTargets y) :
    ∃ Xs ys,
      ((mkPreprocessor t).fit X y).transform X2 (some y2) = .ok (Xs, some ys) ∧
      ((mkPreprocessor t).fit X y).inverse_transform_features Xs = .ok X2 ∧
      ((mkPreprocessor t).fit X y).inverse_transform_targets ys = .ok y2 := by
  set p := (mkPreprocessor t).fit X y with hp
  have hfit : p.is_fitted = true := rfl
  have hfs : p.feature_scaler =
      if t = "minmax" then fitMinMax X.flatten (numFeatures X)
      else fitStandard X.flatten (numFeatures X) := rfl
  have hts : p.target_scaler = fitMinMax y (numTargets y) := rfl
  refine ⟨X2.map (fun sample => sample.map (scalerTransformRow p.feature_scaler)),
          y2.map (scalerTransformRow p.target_scaler), ?_, ?_, ?_⟩
  · unfold LSTMDataPreprocessor.transform
    rw [hfit, if_pos rfl]
    rfl
  · unfold LSTMDataPreprocessor.inverse_transform_features
    rw [hfit, if_pos rfl]
    congr 1
    refine list_map_roundtrip _ _ X2 ?_
    intro sample hsample
    refine list_map_roundtrip _ _ sample ?_
    intro row hrow
    rw [hfs]
    exact fitted_scaler_roundtrip t X.flatten (numFeatures X) row (hX2 sample hsample row hrow)
  · unfold LSTMDataPreprocessor.inverse_transform_targets
    rw [hfit, if_pos rfl]
    congr 1
    refine list_map_roundtrip _ _ y2 ?_
    intro row hrow
    rw [hts]
    exact fitMinMax_roundtrip y (numTargets y) row (hy2 row hrow)

/-- Concrete training arrays: one sample, two time steps, two features; two
target rows of one column. -/
def sampleX : List (List (List ℚ)) := [[[1, 2], [3, 4]]]

/-- Concrete target matrix for the preprocessor witnesses. -/
def sampleY : List (List ℚ) := [[10], [20]]

/-- A feature array of the shape fitted on `sampleX` (two features per row)
but with different contents — the transform-new-data case: two samples of two
time steps each. -/
def sampleX2 : List (List (List ℚ)) := [[[5, 6], [7, 8]], [[0, 1], [2, 3]]]

/-- A target matrix of the shape fitted on `sampleY` (one column) but with
different contents and row count. -/
def sampleY2 : List (List ℚ) := [[30], [40], [55]]

/-- C4 witness: a preprocessor fitted on `sampleX`/`sampleY` round-trips the
DIFFERENT arrays `sampleX2`/`sampleY2` of the fitted shapes. -/
theorem preprocessor_roundtrip_witness :
    ∃ Xs ys,
      ((mkPreprocessor "minmax").fit sampleX sampleY).transform sampleX2 (some sampleY2)
          = .ok (Xs, some ys) ∧
      ((mkPreprocessor "minmax").fit sampleX sampleY).inverse_transform_features Xs
          = .ok sampleX2 ∧
      ((mkPreprocessor "minmax").fit sampleX sampleY).inverse_transform_targets ys
          = .ok sampleY2 :=
  preprocessor_roundtrip "minmax" sampleX sampleX2 sampleY sampleY2
    (by
      intro s hs r hr
      simp only [sampleX2] at hs
      rcases List.mem_cons.mp hs with rfl | hs
      · rcases List.mem_cons.mp hr with rfl | hr
        · rfl
        · rcases List.mem_singleton.mp hr with rfl
          rfl
      · rcases List.mem_singleton.mp hs with rfl
        rcases List.mem_cons.mp hr with rfl | hr
        · rfl
        · rcases List.mem_singleton.mp hr with rfl
          rfl)
    (by
      intro r hr
      simp only [sampleY2] at hr
      rcases List.mem_cons.mp hr with rfl | hr
      · rfl
      · rcases List.mem_cons.mp hr with rfl | hr
        · rfl
        · rcases List.mem_singleton.mp hr with rfl
          rfl)

/-- C5: calling `transform`, `inverse_transform_targets` or
`inverse_transform_features` on a preprocessor that has not been fitted raises
(returns the `RuntimeError` message, producing no transformed output), while
after a successful `fit` all three return a result for every input. -/
theorem preprocessor_requires_fit (p : LSTMDataPreprocessor) (hnf : p.is_fitted = false)
    (t : String) (X X2 : List (List (List ℚ))) (y ys : List (List ℚ))
    (yOpt : Option (List (List ℚ))) :
    (p.transform X2 yOpt =
        .error "Scalers must be fitted before transform. Call fit() first." ∧
     p.inverse_transform_targets ys =
        .error "Scalers must be fitted before inverse_transform." ∧
     p.inverse_transform_features X2 =
        .error "Scalers must be fitted before inverse_transform.") ∧
    ((∃ r, ((mkPreprocessor t).fit X y).transform X2 yOpt = .ok r) ∧
     (∃ r, ((mkPreprocessor t).fit X y).inverse_transform_targets ys = .ok r) ∧
     (∃ r, ((mkPreprocessor t).fit X y).inverse_transform_features X2 = .ok r)) := by
  have hfit : ((mkPreprocessor t).fit X y).is_fitted = true := rfl
  refine ⟨⟨?_, ?_, ?_⟩, ?_, ?_, ?_⟩
  · unfold LSTMDataPreprocessor.transform
    rw [hnf]
    rfl
  · unfold LSTMDataPreprocessor.inverse_transform_targets
    rw [hnf]
    rfl
  · unfold LSTMDataPreprocessor.inverse_transform_features
    rw [hnf]
    rfl
  · unfold LSTMDataPreprocessor.transform
    rw [hfit, if_pos rfl]
    exact ⟨_, rfl⟩
  · unfold LSTMDataPreprocessor.inverse_transform_targets
    rw [hfit, if_pos rfl]
    exact ⟨_, rfl⟩
  · unfold LSTMDataPreprocessor.inverse_transform_features
    rw [hfit, if_pos rfl]
    exact ⟨_, rfl⟩

/-- C5 witness: the freshly constructed preprocessor errors before fit and
succeeds after fitting concrete data. -/
theorem preprocessor_requires_fit_witness :
    (((mkPreprocessor "minmax").transform sampleX (some sampleY) =
        .error "Scalers must be fitted before transform. Call fit() first." ∧
      (mkPreprocessor "minmax").inverse_transform_targets sampleY =
        .error "Scalers must be fitted before inverse_transform." ∧
      (mkPreprocessor "minmax").inverse_transform_features sampleX =
        .error "Scalers must be fitted before inverse_transform.") ∧
     ((∃ r, ((mkPreprocessor "minmax").fit sampleX sampleY).transform sampleX (some sampleY) = .ok r) ∧
      (∃ r, ((mkPreprocessor "minmax").fit sampleX sampleY).inverse_transform_targets sampleY = .ok r) ∧
      (∃ r, ((mkPreprocessor "minmax").fit sampleX sampleY).inverse_transform_features sampleX = .ok r))) :=
  preprocessor_requires_fit (mkPreprocessor "minmax") rfl "minmax"
    sampleX sampleX sampleY sampleY (some sampleY)

/-! ## Training loop with early stopping (src/nba-analytics/ml/lstm_model.py,
LSTMTrainer.train, lines 137-226)

The loop is embedded over an abstract weight type `W`: `step e w` is the effect
of epoch `e`'s training phase (the minibatch loop of lines 171-181, whose
`optimizer.step()` calls mutate the model parameters in place), and `valLoss e`
is the average validation loss computed at epoch `e` (lines 190-199).  The
early-stopping bookkeeping of lines 203-220 is tracked exactly: `best_val_loss`
starts at `float("inf")` (embedded as `none`), `best_epoch` at 0,
`best_model_state` at `None`, `patience_counter` at 0; an improving epoch
records the loss and epoch, saves `best_model_state = self.model.state_dict().copy()`
and resets the counter; otherwise the counter is incremented, and the loop
breaks when it reaches `patience`.

The decisive detail of line 206: `state_dict()` returns the parameter tensors
themselves (detached views sharing storage with the live parameters), and
`.copy()` is a SHALLOW dict copy.  Subsequent `optimizer.step()` calls mutate
those tensors in place, so `best_model_state` always dereferences to the
CURRENT parameter values; it is a flag plus an alias, not a snapshot.  It is
therefore embedded as `bestIsSet : Bool`, and the "restore best model" of
lines 222-224 (`load_state_dict(best_model_state)`) loads the current weights
— the identity. -/

/-- Early-stopping bookkeeping of `LSTMTrainer.train` plus the live weights. -/
structure TrainState (W : Type) where
  params : W
  bestIsSet : Bool
  bestValLoss : Option ℚ
  bestEpoch : ℕ
  patienceCounter : ℕ

/-- One iteration of the `for epoch in range(epochs)` body (lines 166-220),
up to the break test: train phase, validation, early-stopping bookkeeping. -/
def trainEpoch {W : Type} (step : ℕ → W → W) (valLoss : ℕ → ℚ) (e : ℕ)
    (st : TrainState W) : TrainState W :=
  if (match st.bestValLoss with | none => true | some b => valLoss e < b) then
    { params := step e st.params, bestIsSet := true, bestValLoss := some (valLoss e),
      bestEpoch := e, patienceCounter := 0 }
  else
    { st with params := step e st.params, patienceCounter := st.patienceCounter + 1 }

/-- The epoch loop: runs up to `fuel` more epochs starting at index `e`,
breaking when `patience_counter >= patience` (lines 218-220).  Returns the
final state and the index one past the last epoch run. -/
def trainLoop {W : Type} (step : ℕ → W → W) (valLoss : ℕ → ℚ) (patience : ℕ) :
    ℕ → ℕ → TrainState W → TrainState W × ℕ
  | 0, e, st => (st, e)
  | fuel + 1, e, st =>
    if (trainEpoch step valLoss e st).patienceCounter ≥ patience then
      (trainEpoch step valLoss e st, e + 1)
    else trainLoop step valLoss patience fuel (e + 1) (trainEpoch step valLoss e st)

/-- Embedding of `LSTMTrainer.train` (lines 137-226): run the loop from fresh
bookkeeping, then "restore" the best model — which, `best_model_state` being a
shallow copy aliasing the live tensors, leaves the current weights in place.
Returns (weights held on return, `history["best_epoch"]`, epochs run). -/
def LSTMTrainer_train {W : Type} (step : ℕ → W → W) (valLoss : ℕ → ℚ)
    (epochs patience : ℕ) (w0 : W) : W × ℕ × ℕ :=
  ((if (trainLoop step valLoss patience epochs 0
        ⟨w0, false, none, 0, 0⟩).1.bestIsSet then
      -- `self.model.load_state_dict(best_model_state)`: the dict's tensors hold
      -- the current parameter values, so the weights are unchanged.
      (trainLoop step valLoss patience epochs 0 ⟨w0, false, none, 0, 0⟩).1.params
    else (trainLoop step valLoss patience epochs 0 ⟨w0, false, none, 0, 0⟩).1.params),
   (trainLoop step valLoss patience epochs 0 ⟨w0, false, none, 0, 0⟩).1.bestEpoch,
   (trainLoop step valLoss patience epochs 0 ⟨w0, false, none, 0, 0⟩).2)

/-- The weights actually held after the training phase of epoch `e` — what a
deep-copied checkpoint recorded at epoch `e` would contain. -/
def weightsAfterEpoch {W : Type} (step : ℕ → W → W) (w0 : W) : ℕ → W
  | 0 => step 0 w0
  | e + 1 => step (e + 1) (weightsAfterEpoch step w0 e)

/-- Weights for the failing run: start at 0 and gain 1 per epoch, so every
epoch's weights differ. -/
def stepIncr : ℕ → ℕ → ℕ := fun _ w => w + 1

/-- Validation losses for the failing run: 1.0 at epoch 0, then 2.0 forever —
the loss stops improving after epoch k = 0. -/
def valLossStall : ℕ → ℚ := fun e => if e = 0 then 1 else 2

/-- C6: evaluating `LSTMTrainer.train` on a run whose validation loss stops
improving after epoch 0 (losses 1, 2, 2, …; patience 2; epochs 10; weights
incremented each epoch).  Training does halt within patience epochs of the
best epoch (3 epochs run, best_epoch = 0) — but the weights held on return are
3, the FINAL epoch's weights, whereas the checkpoint a deep copy would have
recorded at the best epoch is 1: the shallow `state_dict().copy()` aliases the
live tensors and the restore of lines 222-224 is a no-op, so the claimed
restoration does not happen. -/
theorem lstm_train_returns_final_not_best :
    LSTMTrainer_train stepIncr valLossStall 10 2 0 = (3, 0, 3) ∧
    weightsAfterEpoch stepIncr 0 0 = 1 ∧
    (3 : ℕ) ≠ 1 := by
  refine ⟨?_, rfl, by decide⟩
  decide

end NBA
